import Mathlib

/-!
Shallow embedding of the FastXpan chunked/resumable transfer subsystem
(`src/fastxpan/api/fx_file_api.py`) together with proofs of the spec's
testable properties.  Files are modelled as lists of bytes (`List Nat`);
the incremental MD5 state is modelled as the list of bytes accumulated so
far, with an abstract digest function applied at each block boundary;
network endpoints and the HTTP response stream are modelled as oracle
parameters, and every network interaction is recorded in an event trace.
-/

namespace FastXpan

/-- Splitting a byte list into consecutive chunks of `n` bytes each (the last
chunk may be shorter).  `chunksOf 1024 file` models reading a file with
`iter(lambda: file.read(1024), b'')`. -/
def chunksOf (n : Nat) (l : List α) : List (List α) :=
  if h : n = 0 ∨ l.length = 0 then []
  else
    have : l.length - n < l.length := by omega
    l.take n :: chunksOf n (l.drop n)
termination_by l.length
decreasing_by simpa using this

/-! ## ChunkHasher (`file_upload_multipart`, manifest phase, lines 671-688)

The Python loop reads the file in 1 KiB chunks, feeds each chunk into a
running MD5 (`_md5.update(chunk)`), counts chunks in `i`, and on crossing
`iter_count` chunks emits `_md5.hexdigest()` and restarts the hash from the
current chunk; a final partial hash is emitted at end of file when `i ≠ 0`.
The MD5 object is modelled by the list of bytes it has absorbed (`update` is
append, `hexdigest` is an abstract digest function `h`). -/

/-- One digest per remaining block, given the chunk counter `i` and the bytes
`st` absorbed into the current hash (the recursion of lines 677-687 without
the `block_list` accumulator). -/
def mloop (h : List Nat → String) (ic : Nat) :
    List (List Nat) → Nat → List Nat → List String
  | [], i, st => if i ≠ 0 then [h st] else []
  | c :: cs, i, st =>
      if i < ic then mloop h ic cs (i + 1) (st ++ c)
      else h st :: mloop h ic cs 1 c

/-- The manifest loop of lines 675-687: chunk stream, counter `i`, running
hash state `st`, accumulated `block_list`. -/
def buildBlockListLoop (h : List Nat → String) (ic : Nat) :
    List (List Nat) → Nat → List Nat → List String → List String
  | [], i, st, acc => if i ≠ 0 then acc ++ [h st] else acc
  | c :: cs, i, st, acc =>
      if i < ic then buildBlockListLoop h ic cs (i + 1) (st ++ c) acc
      else buildBlockListLoop h ic cs 1 c (acc ++ [h st])

/-- The block manifest of `file_upload_multipart`: hash of each `iter_count`
consecutive 1 KiB read units of the file (initial state `i = 0`, fresh MD5,
empty `block_list`). -/
def buildBlockList (h : List Nat → String) (ic : Nat) (file : List Nat) :
    List String :=
  buildBlockListLoop h ic (chunksOf 1024 file) 0 [] []

/-! ## TransferLimits (`file_upload_multipart`, lines 644-656) -/

/-- One tier's derived constants: single-block byte size (`part_size`),
maximum total file size (`max_size`), 1 KiB read units per block
(`iter_count`). -/
structure TierLimits where
  part_size : Nat
  max_size : Nat
  iter_count : Nat
deriving DecidableEq, Repr

/-- The tier lookup of lines 644-656: `user_type == 1` is the Plus tier,
`user_type == 2` the Premium tier, everything else (including 0) the
Standard tier.  A pure total function: no side effects, no failure. -/
def tierLimits (user_type : Int) : TierLimits :=
  if user_type = 1 then ⟨16777216, 10737418240, 16384⟩
  else if user_type = 2 then ⟨33554432, 21474836480, 32768⟩
  else ⟨4194304, 4294967296, 4096⟩

/-! ## Error table (`src/fastxpan/common/error_messages.py`)

The Python dict `fxerr`; `fxerr.get`-style lookup is `Option`-valued, a
`none` result models a `KeyError` on direct `fxerr[code]` indexing. -/

def fxerr (code : Int) : Option String :=
  if code = -31066 then some "文件不存在"
  else if code = -10 then some "云端容量已满"
  else if code = -9 then some "文件或目录不存在"
  else if code = -8 then some "文件或目录已存在"
  else if code = -7 then some "文件或目录名错误或无权访问"
  else if code = -6 then some "身份验证失败"
  else if code = -3 then some "文件不存在"
  else if code = -1 then some "权益已过期"
  else if code = 0 then some "请求成功"
  else if code = 2 then some "参数错误"
  else if code = 3 then some "不支持的开放API"
  else if code = 6 then some "不允许接入用户数据"
  else if code = 10 then some "创建文件失败"
  else if code = 11 then some "自己发送的分享"
  else if code = 12 then some "批量转存出错"
  else if code = 111 then some "Access Token 失效 / 有其他异步任务正在执行"
  else if code = 255 then some "转存数量太多"
  else if code = 2131 then some "该分享不存在"
  else if code = 31023 then some "参数错误"
  else if code = 31024 then some "没有申请上传权限"
  else if code = 31034 then some "命中接口频控"
  else if code = 31045 then
    some "access_token验证未通过，请检查access_token是否过期，用户授权时是否勾选网盘权限等。"
  else if code = 31061 then some "文件已存在"
  else if code = 31064 then some "没有上传文件到该目录的权限"
  else if code = 31190 then some "文件不存在"
  else if code = 31299 then some "第一个分片的大小小于4MB"
  else if code = 31326 then some "命中防盗链，需检查User-Agent请求头是否正常。"
  else if code = 31362 then some "签名错误，请检查链接地址是否完整。"
  else if code = 31363 then some "分片缺失"
  else if code = 31364 then some "超出分片大小限制"
  else if code = 31365 then some "文件总大小超限"
  else if code = 42214 then some "文件基础信息查询失败"
  else if code = 42905 then some "查询用户名失败，可重试"
  else none

/-! ## UploadSession (`file_upload_multipart`, lines 615-741)

The three network endpoints and the remote-existence check are oracles; the
model returns the Python function's result together with the trace of
network calls it made, in order.  A Python `KeyError` from direct
`fxerr[code]` indexing and an uncaught exception are modelled by a distinct
`raised` result. -/

/-- Python `s.startswith(pre)`: character-wise prefix test. -/
def pyStartsWith (s pre : String) : Bool :=
  s.data.take pre.data.length == pre.data

/-- A Python-level error escaping the function (not a `(False, msg)` return). -/
inductive PyErr where
  | keyError (code : Int)
  | other (msg : String)
deriving DecidableEq, Repr

/-- The outcome of one of the modelled Python functions: an ordinary
`(bool, str)` return, or an uncaught exception. -/
inductive DRes where
  | ret (suc : Bool) (msg : String)
  | raised (e : PyErr)
deriving DecidableEq, Repr

/-- One network interaction of the multipart upload. -/
inductive NetEvent where
  | getFileByPath
  | precreateCall (manifest : List String)
  | blockUpload (seq : Nat) (payload : List Nat)
  | createCall (manifest : List String)
deriving DecidableEq, Repr

/-- Oracle outcome of `api.xpanfileprecreate`: an `ApiException` with body, or
a response carrying `errno`, `uploadid` and the server-chosen `block_list`
index list. -/
inductive PrecreateOutcome where
  | exn (body : String)
  | ok (errno : Int) (uploadid : String) (blockListIndex : List Nat)

/-- Oracle outcome of `api.pcssuperfile2` for one block: success, a response
dict containing an `errno` key (returned verbatim by the Python code,
modelled by its string form), or an `ApiException`. -/
inductive BlockOutcome where
  | ok
  | errnoDict (repr : String)
  | exn (body : String)

/-- Oracle outcome of `api.xpanfilecreate`. -/
inductive CreateOutcome where
  | exn (body : String)
  | ok (errno : Int)

/-- Environment for one run of `file_upload_multipart`: the abstract MD5 hex
digest, the remote duplicate check, and the three endpoints' behaviour. -/
structure UploadEnv where
  md5hex : List Nat → String
  remoteFileExists : Bool
  precreate : PrecreateOutcome
  blockRes : Nat → BlockOutcome
  create : CreateOutcome

/-- Arguments of `file_upload_multipart`; the local file is its byte content
plus the `is_file()` answer, `target_file_name` omitted here since it only
feeds the remote path string. -/
structure UploadArgs where
  target_dir_path : String
  local_file_name : String
  localFileIsFile : Bool
  fileContent : List Nat
  overwrite : Bool
  user_type : Int

/-- The per-block upload loop of lines 707-731: for each `part_seq` of the
server-returned list, in order, stage the next `ic` read units of the file
into the scratch buffer and upload that buffer tagged `part_seq`; abort on
the first failing block.  Returns `none` if the loop completed, `some r` if
the Python code returned early with `r`, plus the block-upload events. -/
def uploadBlocks (blockRes : Nat → BlockOutcome) (ic : Nat) :
    List Nat → List (List Nat) → Option DRes × List NetEvent
  | [], _ => (none, [])
  | seq :: rest, chunks =>
      let payload := (chunks.take ic).flatten
      match blockRes seq with
      | .ok =>
          let r := uploadBlocks blockRes ic rest (chunks.drop ic)
          (r.1, .blockUpload seq payload :: r.2)
      | .errnoDict rp => (some (.ret false rp), [.blockUpload seq payload])
      | .exn body =>
          (some (.ret false ("上传分片" ++ toString seq ++ "失败: " ++ body)),
            [.blockUpload seq payload])

/-- `file_upload_multipart` (lines 615-741): validation, tier lookup, size
checks, duplicate check, manifest build, precreate, per-block upload,
finalize.  Result plus ordered network-event trace. -/
def file_upload_multipart (env : UploadEnv) (a : UploadArgs) :
    DRes × List NetEvent :=
  if a.target_dir_path = "/" then (.ret false "文件路径不能为根目录", [])
  else if ¬ pyStartsWith a.target_dir_path "/" then (.ret false "无效的路径", [])
  else
    let tl := tierLimits a.user_type
    if ¬ a.localFileIsFile then (.ret false "文件不存在", [])
    else if a.fileContent.length = 0 then
      (.ret false "分片上传禁止上传空文件", [])
    else if tl.max_size < a.fileContent.length then (.ret false "文件过大", [])
    else
      let checkEvs : List NetEvent :=
        if a.overwrite then [] else [.getFileByPath]
      if ¬ a.overwrite ∧ env.remoteFileExists then
        (.ret false "文件已存在", checkEvs)
      else
        let manifest := buildBlockList env.md5hex tl.iter_count a.fileContent
        match env.precreate with
        | .exn body =>
            (.ret false ("预上传失败: " ++ body),
              checkEvs ++ [.precreateCall manifest])
        | .ok errno _uploadid blockIdx =>
            if errno ≠ 0 then
              match fxerr errno with
              | some msg =>
                  (.ret false ("预上传失败: " ++ msg),
                    checkEvs ++ [.precreateCall manifest])
              | none =>
                  (.raised (.keyError errno),
                    checkEvs ++ [.precreateCall manifest])
            else
              let bl := uploadBlocks env.blockRes tl.iter_count blockIdx
                (chunksOf 1024 a.fileContent)
              match bl.1 with
              | some r => (r, checkEvs ++ [.precreateCall manifest] ++ bl.2)
              | none =>
                  let evs := checkEvs ++ [.precreateCall manifest] ++ bl.2 ++
                    [.createCall manifest]
                  match env.create with
                  | .exn body =>
                      (.ret false
                        ("创建文件" ++ a.local_file_name ++ "失败: " ++ body),
                        evs)
                  | .ok cerrno =>
                      if cerrno ≠ 0 then
                        match fxerr cerrno with
                        | some msg => (.ret false msg, evs)
                        | none => (.raised (.keyError cerrno), evs)
                      else
                        match fxerr cerrno with
                        | some msg => (.ret true msg, evs)
                        | none => (.raised (.keyError cerrno), evs)

/-- The block-upload events produced on an all-successful run: position `k`
of the list is tagged with the `k`-th server index and carries the `k`-th
sequential group of `ic` read units. -/
def upEvents (ic : Nat) : List Nat → List (List Nat) → List NetEvent
  | [], _ => []
  | seq :: rest, chunks =>
      .blockUpload seq ((chunks.take ic).flatten) ::
        upEvents ic rest (chunks.drop ic)

/-- The `(seq, payload)` pairs expected on an all-successful block loop. -/
def upPairs (ic : Nat) : List Nat → List (List Nat) → List (Nat × List Nat)
  | [], _ => []
  | seq :: rest, chunks =>
      (seq, (chunks.take ic).flatten) :: upPairs ic rest (chunks.drop ic)

/-- The `(seq, payload)` pairs of the block-upload events of a trace. -/
def blockEventsOf (tr : List NetEvent) : List (Nat × List Nat) :=
  tr.filterMap fun e => match e with
    | .blockUpload s p => some (s, p)
    | _ => none

/-- Environment for the C1 counterexample: the precreate endpoint returns the
reordered block index list `[2, 0, 1]`, every block upload succeeds. -/
def envC1 : UploadEnv :=
  ⟨fun _ => "", false, .ok 0 "uid" [2, 0, 1], fun _ => .ok, .ok 0⟩

/-- Arguments for the C1 counterexample: a 4 MiB + 1 byte local file under
the Standard tier (block size 4194304), overwrite on. -/
def argsC1 : UploadArgs :=
  ⟨"/apps/x", "f", true, List.replicate 4194305 0, true, 0⟩

/-! ## DownloadSession (`fx_file_api.py`, lines 743-953)

The `requests.get` call and the body stream are oracles; each variant's model
returns the Python result together with a trace of the observable file-system
facts: the `Range` header sent, the mode the temporary file was opened with,
the progress-bar total, and the temporary/destination file sizes afterwards. -/

/-- Outcome of `requests.get` for one download request: a raised transport
exception, or a response with HTTP status, an error body `(error_code,
error_msg)` and a `Content-Length`. -/
inductive ReqOutcome where
  | raises (msg : String)
  | responds (status : Int) (errCode : Int) (errRaw : String)
      (contentLength : Nat)

/-- Outcome of the 1 KiB streaming copy loop: the whole body is written, or
an exception of the caught type is raised after `written` bytes. -/
inductive StreamOutcome where
  | ok (written : Nat)
  | exn (written : Nat) (msg : String)

/-- Observable effects of one download-variant call. -/
structure DlTrace where
  requestRange : Option String
  openMode : Option String
  pbarTotal : Option Nat
  tmpAfter : Option Nat
  destAfter : Option Nat
  renamed : Bool
deriving DecidableEq, Repr

/-- `__file_download_by_dlink_simple` (lines 743-775): dlink check, plain GET
(no `Range`), status must be 200, fresh-write (`"wb"`) streaming; on a caught
exception the temporary file is UNLINKED (line 774); on success the temporary
file is renamed onto the destination. -/
def file_download_by_dlink_simple (target_dlink : String) (tmp0 : Option Nat)
    (req : ReqOutcome) (streamOut : StreamOutcome) : DRes × DlTrace :=
  if ¬ pyStartsWith target_dlink "https://d.pcs.baidu.com/file/" then
    (.ret false "无效的dlink", ⟨none, none, none, tmp0, none, false⟩)
  else
    match req with
    | .raises msg =>
        (.raised (.other msg), ⟨none, none, none, tmp0, none, false⟩)
    | .responds status errCode errRaw contentLength =>
        if status ≠ 200 then
          (match fxerr errCode with
            | some m => .ret false m
            | none => .ret false errRaw,
           ⟨none, none, none, tmp0, none, false⟩)
        else
          match streamOut with
          | .ok written =>
              (.ret true "下载完成",
                ⟨none, some "wb", some contentLength, none, some written,
                  true⟩)
          | .exn _written msg =>
              (.ret false msg,
                ⟨none, some "wb", some contentLength, none, none, false⟩)

/-- `__breakpoint_init` (lines 777-799): read the temporary file's size as
`first_byte` (0 when absent), send `Range: bytes=<first_byte>-` iff
`first_byte ≠ 0`, catch any request exception as a `(False, str(e))` return,
accept statuses 200 and 206, map other statuses through the error table with
fallback to the raw message.  Returns the `(first_byte, total_size)` pair or
the error message, together with the `Range` header that was sent. -/
def breakpoint_init (tmp0 : Option Nat) (req : ReqOutcome) :
    Except String (Nat × Nat) × Option String :=
  let first_byte := tmp0.getD 0
  let range := if first_byte ≠ 0
    then some ("bytes=" ++ toString first_byte ++ "-") else none
  match req with
  | .raises msg => (.error msg, range)
  | .responds status errCode errRaw contentLength =>
      if status ≠ 200 ∧ status ≠ 206 then
        (match fxerr errCode with
          | some m => .error m
          | none => .error errRaw, range)
      else (.ok (first_byte, contentLength), range)

/-- `__file_download_by_dlink_breakpoint` (lines 801-825): dlink check, init,
append (`"ab"`) when resuming / fresh write (`"wb"`) otherwise, progress-bar
total `first_byte + total_size`; on a caught exception the temporary file is
RETAINED; on success the temporary file is renamed onto the destination. -/
def file_download_by_dlink_breakpoint (target_dlink : String)
    (tmp0 : Option Nat) (req : ReqOutcome) (streamOut : StreamOutcome) :
    DRes × DlTrace :=
  if ¬ pyStartsWith target_dlink "https://d.pcs.baidu.com/file/" then
    (.ret false "无效的dlink", ⟨none, none, none, tmp0, none, false⟩)
  else
    let ini := breakpoint_init tmp0 req
    match ini.1 with
    | .error msg => (.ret false msg, ⟨ini.2, none, none, tmp0, none, false⟩)
    | .ok fbts =>
        let mode := if fbts.1 ≠ 0 then "ab" else "wb"
        match streamOut with
        | .ok written =>
            (.ret true "下载完成",
              ⟨ini.2, some mode, some (fbts.1 + fbts.2), none,
                some (fbts.1 + written), true⟩)
        | .exn written msg =>
            (.ret false msg,
              ⟨ini.2, some mode, some (fbts.1 + fbts.2),
                some (fbts.1 + written), none, false⟩)

/-- Oracle outcome of one attempt of the auto-retry loop (lines 834-862): a
non-200/206 response carrying an error body, a completed stream (content
length plus bytes written) followed by the rename, or a caught exception
after writing `written` bytes. -/
inductive AttemptOutcome where
  | httpError (errCode : Int) (errRaw : String)
  | success (contentLength : Nat) (written : Nat)
  | caughtExn (written : Nat) (msg : String)

/-- Result of the auto-retry loop: Python result, `Range` headers of the
requests actually issued (in order), and the final temporary/destination
file sizes. -/
structure RetryResult where
  res : DRes
  ranges : List (Option String)
  tmpAfter : Option Nat
  destAfter : Option Nat
deriving DecidableEq, Repr

/-- The loop body of `__file_download_by_dlink_breakpoint_auto_retry`
(lines 834-863): each iteration re-reads the temporary file's current size,
sets the (sticky) `Range` header iff that size is non-zero, issues the GET;
a non-200/206 response returns `fxerr[error_code]` immediately (KeyError on
an unknown code); a completed stream renames and returns success; a caught
exception leaves the grown temporary file in place and continues; after the
last iteration `(False, err)` is returned with the last error observed. -/
def autoRetryLoop (outs : Nat → AttemptOutcome) :
    Nat → Nat → Option Nat → Option String → String → RetryResult
  | _i, 0, tmp, _range, err => ⟨.ret false err, [], tmp, none⟩
  | i, rem + 1, tmp, range, _err =>
      let first_byte := tmp.getD 0
      let range1 := if first_byte ≠ 0
        then some ("bytes=" ++ toString first_byte ++ "-") else range
      match outs i with
      | .httpError errCode _errRaw =>
          ⟨(match fxerr errCode with
             | some m => .ret false m
             | none => .raised (.keyError errCode)), [range1], tmp, none⟩
      | .success _contentLength written =>
          ⟨.ret true "下载完成", [range1], none, some (first_byte + written)⟩
      | .caughtExn written msg =>
          let rest := autoRetryLoop outs (i + 1) rem
            (some (first_byte + written)) range1 msg
          ⟨rest.res, range1 :: rest.ranges, rest.tmpAfter, rest.destAfter⟩

/-- `__file_download_by_dlink_breakpoint_auto_retry` (lines 827-863): no
dlink-shape check, `err` initialised to `"Error"`, loop over
`range(max_retry)` starting with no `Range` header. -/
def file_download_by_dlink_breakpoint_auto_retry (_target_dlink : String)
    (outs : Nat → AttemptOutcome) (max_retry : Nat) (tmp0 : Option Nat) :
    RetryResult :=
  autoRetryLoop outs 0 max_retry tmp0 none "Error"

/-- Sum `w i + w (i+1) + ... + w (i+k-1)`: the bytes written by the `k`
failed attempts starting at attempt `i`. -/
def sumW (w : Nat → Nat) : Nat → Nat → Nat
  | _i, 0 => 0
  | i, k + 1 => w i + sumW w (i + 1) k

/-- The `Range` headers sent by a run of consecutive failing attempts:
attempt `i` sees temporary size `fb` and sticky header `range`. -/
def failReqs (w : Nat → Nat) :
    Nat → Nat → Nat → Option String → List (Option String)
  | _i, 0, _fb, _range => []
  | i, rem + 1, fb, range =>
      let range1 := if fb ≠ 0
        then some ("bytes=" ++ toString fb ++ "-") else range
      range1 :: failReqs w (i + 1) rem (fb + w i) range1

/-! ## `__file_download_check` (lines 865-885) -/

/-- The local file system seen by `__file_download_check`: whether the
destination's parent directory exists, and the destination file (content
bytes and modification time) when present. -/
structure Fs where
  parentExists : Bool
  destFile : Option (List Nat × Nat)
deriving DecidableEq, Repr

/-- The dlink-resolution tail of `__file_download_check` (lines 873-885):
`r1` is the oracle answer of `get_file_dlink_by_fsid`, `r2` of
`get_file_fsid_by_path`. -/
def downloadCheckResolve (r1 r2 : Bool × String) (what : Int) :
    Bool × String :=
  if what = 1 then
    if ¬ r1.1 then r1 else (true, r1.2)
  else if what = 2 then
    if ¬ r2.1 then r2
    else if ¬ r1.1 then r1
    else (true, r1.2)
  else (true, "succeed")

/-- `__file_download_check` (lines 865-885): parent directory must exist; an
existing destination file is unlinked when `overwrite` else the call fails
with `"文件已存在"`; then the dlink is resolved.  Returns the Python result
and the file system afterwards. -/
def file_download_check (fs : Fs) (overwrite : Bool)
    (r1 r2 : Bool × String) (what : Int) : (Bool × String) × Fs :=
  if ¬ fs.parentExists then ((false, "文件保存路径错误"), fs)
  else
    match fs.destFile with
    | some _ =>
        if overwrite then
          (downloadCheckResolve r1 r2 what, { fs with destFile := none })
        else ((false, "文件已存在"), fs)
    | none => (downloadCheckResolve r1 r2 what, fs)

/-! ## Local-file-name selection (`__download_method` lines 931/941/948,
`file_download_mini` lines 902-903) -/

/-- The `local_file_name` argument: the `...` (Ellipsis) default sentinel or
a caller-supplied string. -/
inductive PyStrArg where
  | ellipsisDefault
  | str (s : String)
deriving DecidableEq, Repr

/-- Python truthiness of that argument: `Ellipsis` is truthy, a string is
truthy iff non-empty. -/
def pyTruthy : PyStrArg → Bool
  | .ellipsisDefault => true
  | .str s => !(s == "")

/-- The selection expression
`local_file_name if not local_file_name else download_file_name` shared by
`__download_method` and `file_download_mini`: the caller's value is chosen
only when it is FALSY. -/
def downloadLocalNameSelection (local_file_name : PyStrArg)
    (download_file_name : String) : PyStrArg :=
  if pyTruthy local_file_name = false then local_file_name
  else .str download_file_name

theorem chunksOf_nil (n : Nat) : chunksOf n ([] : List α) = [] := by
  rw [chunksOf]; simp

theorem chunksOf_zero (l : List α) : chunksOf 0 l = [] := by
  rw [chunksOf]; simp

theorem chunksOf_cons_of (n : Nat) (l : List α) (hl : l ≠ []) (hn : n ≠ 0) :
    chunksOf n l = l.take n :: chunksOf n (l.drop n) := by
  rw [chunksOf]
  have : l.length ≠ 0 := fun h => hl (List.length_eq_zero.mp h)
  simp [hn, this]

theorem chunksOf_ne_nil (n : Nat) (l : List α) (hl : l ≠ []) (hn : n ≠ 0) :
    chunksOf n l ≠ [] := by
  rw [chunksOf_cons_of n l hl hn]; simp

/-- Number of chunks is the ceiling of `length / n`. -/
theorem chunksOf_length (n : Nat) (hn : n ≠ 0) (l : List α) :
    (chunksOf n l).length = (l.length + n - 1) / n := by
  by_cases hl : l = []
  · subst hl
    rw [chunksOf_nil]
    simp only [List.length_nil, List.length]
    rw [Nat.div_eq_of_lt (by omega)]
  · rw [chunksOf_cons_of n l hl hn]
    have hpos : 0 < l.length := List.length_pos.mpr hl
    have ih := chunksOf_length n hn (l.drop n)
    simp only [List.length_cons, ih, List.length_drop]
    rcases le_or_lt l.length n with hle | hlt
    · have h1 : l.length - n = 0 := by omega
      rw [h1]
      have h2 : (0 + n - 1) / n = 0 := Nat.div_eq_of_lt (by omega)
      have h3 : (l.length + n - 1) / n = 1 := by
        apply Nat.div_eq_of_lt_le <;> omega
      omega
    · have h1 : l.length - n + n - 1 = l.length - 1 - n + n := by omega
      have h2 : l.length + n - 1 = l.length - 1 - n + n + n := by omega
      rw [h1, h2, Nat.add_div_right _ (by omega), Nat.add_div_right _ (by omega),
        Nat.add_div_right _ (by omega)]
termination_by l.length
decreasing_by simp; omega

/-- Dropping `k` chunks corresponds to dropping `n * k` bytes. -/
theorem chunksOf_drop (n k : Nat) (l : List α) :
    (chunksOf n l).drop k = chunksOf n (l.drop (n * k)) := by
  induction k generalizing l with
  | zero => simp
  | succ k ih =>
    by_cases hn : n = 0
    · simp [hn, chunksOf_zero]
    by_cases hl : l = []
    · simp [hl, chunksOf_nil]
    · rw [chunksOf_cons_of n l hl hn, List.drop_succ_cons, ih,
        List.drop_drop, Nat.mul_succ]
      ring_nf

/-- Joining the first `k` chunks gives the first `n * k` bytes. -/
theorem chunksOf_take_flatten (n k : Nat) (l : List α) :
    ((chunksOf n l).take k).flatten = l.take (n * k) := by
  induction k generalizing l with
  | zero => simp
  | succ k ih =>
    by_cases hn : n = 0
    · simp [hn, chunksOf_zero]
    by_cases hl : l = []
    · simp [hl, chunksOf_nil]
    · rw [chunksOf_cons_of n l hl hn, List.take_succ_cons, List.flatten_cons, ih,
        Nat.mul_succ, Nat.add_comm (n * k) n, List.take_add]

/-- The `k`-th chunk is the byte range `[n*k, n*k + n)` of the source. -/
theorem chunksOf_getD (n k : Nat) (hn : n ≠ 0) (l : List α)
    (hk : n * k < l.length) :
    (chunksOf n l).getD k [] = (l.drop (n * k)).take n := by
  induction k generalizing l with
  | zero =>
    have hl : l ≠ [] := by
      intro h; rw [h] at hk; simp at hk
    rw [chunksOf_cons_of n l hl hn]
    simp
  | succ k ih =>
    have hl : l ≠ [] := by
      intro h; rw [h] at hk; simp at hk
    rw [chunksOf_cons_of n l hl hn]
    have hmul : n * (k + 1) = n * k + n := Nat.mul_succ n k
    have hk' : n * k < (l.drop n).length := by
      rw [List.length_drop]; omega
    calc ((l.take n :: chunksOf n (l.drop n)).getD (k + 1) [])
        = (chunksOf n (l.drop n)).getD k [] := rfl
      _ = ((l.drop n).drop (n * k)).take n := ih (l.drop n) hk'
      _ = (l.drop (n * (k + 1))).take n := by
          rw [List.drop_drop, hmul]; ring_nf

theorem buildBlockListLoop_eq_mloop (h : List Nat → String) (ic : Nat)
    (cs : List (List Nat)) : ∀ i st acc,
    buildBlockListLoop h ic cs i st acc = acc ++ mloop h ic cs i st := by
  induction cs with
  | nil =>
    intro i st acc
    by_cases hi : i = 0 <;> simp [buildBlockListLoop, mloop, hi]
  | cons c cs ih =>
    intro i st acc
    by_cases hi : i < ic <;> simp [buildBlockListLoop, mloop, hi, ih]

/-- Partial-block invariant: with `p` the chunks already absorbed into the
current hash (`0 < p.length ≤ ic`), the remaining digests are the digests of
the `ic`-chunk groups of `p ++ cs`. -/
theorem mloop_spec (h : List Nat → String) (ic : Nat) (cs : List (List Nat)) :
    ∀ p : List (List Nat), 0 < p.length → p.length ≤ ic →
    mloop h ic cs p.length p.flatten =
      (chunksOf ic (p ++ cs)).map (fun g => h g.flatten) := by
  induction cs with
  | nil =>
    intro p hp hple
    have hpn : p ≠ [] := by
      intro hx; rw [hx] at hp; simp at hp
    have hic : ic ≠ 0 := by omega
    rw [chunksOf_cons_of ic (p ++ []) (by simpa using hpn) hic]
    have h1 : (p ++ []).take ic = p := by
      simp [List.take_of_length_le hple]
    have h2 : (p ++ []).drop ic = [] := by
      simp [List.drop_eq_nil_of_le hple]
    rw [h1, h2, chunksOf_nil]
    have hne : p.length ≠ 0 := by omega
    simp [mloop, hne]
  | cons c cs ih =>
    intro p hp hple
    have hic : ic ≠ 0 := by omega
    rcases lt_or_eq_of_le hple with hlt | heq
    · have step : mloop h ic (c :: cs) p.length p.flatten =
          mloop h ic cs (p.length + 1) (p.flatten ++ c) := by
        simp [mloop, hlt]
      have hflat : p.flatten ++ c = (p ++ [c]).flatten := by simp
      have hlen : p.length + 1 = (p ++ [c]).length := by simp
      rw [step, hflat, hlen, ih (p ++ [c]) (by simp) (by simp; omega)]
      simp
    · have step : mloop h ic (c :: cs) p.length p.flatten =
          h p.flatten :: mloop h ic cs 1 c := by
        simp [mloop, heq]
      have h1 : mloop h ic cs 1 c = mloop h ic cs [c].length [c].flatten := by
        simp
      rw [step, h1, ih [c] (by simp) (by simp; omega)]
      rw [chunksOf_cons_of ic (p ++ c :: cs) (by simp) hic]
      have h2 : (p ++ c :: cs).take ic = p := by
        rw [← heq, List.take_left]
      have h3 : (p ++ c :: cs).drop ic = c :: cs := by
        rw [← heq, List.drop_left]
      rw [h2, h3]
      simp

/-- The manifest groups the 1 KiB read units into `ic`-sized groups. -/
theorem mloop_zero (h : List Nat → String) (ic : Nat) (hic : ic ≠ 0)
    (cs : List (List Nat)) :
    mloop h ic cs 0 [] = (chunksOf ic cs).map (fun g => h g.flatten) := by
  cases cs with
  | nil => simp [mloop, chunksOf_nil]
  | cons c cs =>
    have step : mloop h ic (c :: cs) 0 [] = mloop h ic cs 1 c := by
      simp [mloop, Nat.pos_of_ne_zero hic]
    have h1 : mloop h ic cs 1 c = mloop h ic cs [c].length [c].flatten := by
      simp
    rw [step, h1, mloop_spec h ic cs [c] (by simp) (by simp; omega)]
    simp

/-- Regrouping: `ic`-sized groups of `n`-byte chunks, flattened, are exactly
the `n * ic`-byte chunks. -/
theorem chunksOf_chunksOf (n ic : Nat) (hn : n ≠ 0) (hic : ic ≠ 0)
    (l : List α) :
    (chunksOf ic (chunksOf n l)).map List.flatten = chunksOf (n * ic) l := by
  by_cases hl : l = []
  · simp [hl, chunksOf_nil]
  · have hcn : chunksOf n l ≠ [] := chunksOf_ne_nil n l hl hn
    have hnic : n * ic ≠ 0 := by positivity
    rw [chunksOf_cons_of ic (chunksOf n l) hcn hic,
      chunksOf_cons_of (n * ic) l hl hnic]
    have h1 : ((chunksOf n l).take ic).flatten = l.take (n * ic) :=
      chunksOf_take_flatten n ic l
    have h2 : (chunksOf n l).drop ic = chunksOf n (l.drop (n * ic)) :=
      chunksOf_drop n ic l
    have hlt : (l.drop (n * ic)).length < l.length := by
      rw [List.length_drop]
      have : 0 < l.length := List.length_pos.mpr hl
      have : 0 < n * ic := Nat.pos_of_ne_zero hnic
      omega
    rw [List.map_cons, h1, h2, chunksOf_chunksOf n ic hn hic (l.drop (n * ic))]
termination_by l.length

/-- Main manifest characterisation: the manifest is the list of digests of the
`1024 * ic`-byte blocks of the file, in byte-offset order. -/
theorem buildBlockList_eq (h : List Nat → String) (ic : Nat) (hic : ic ≠ 0)
    (file : List Nat) :
    buildBlockList h ic file = (chunksOf (1024 * ic) file).map h := by
  rw [buildBlockList, buildBlockListLoop_eq_mloop, mloop_zero h ic hic,
    List.nil_append, ← chunksOf_chunksOf 1024 ic (by omega) hic file,
    List.map_map]
  rfl

theorem tierLimits_part_size_eq (u : Int) :
    (tierLimits u).part_size = 1024 * (tierLimits u).iter_count := by
  by_cases h1 : u = 1
  · simp [tierLimits, h1]
  · by_cases h2 : u = 2 <;> simp [tierLimits, h1, h2]

theorem uploadBlocks_all_ok (blockRes : Nat → BlockOutcome) (ic : Nat)
    (hok : ∀ s, blockRes s = .ok) :
    ∀ (idx : List Nat) (chunks : List (List Nat)),
    uploadBlocks blockRes ic idx chunks = (none, upEvents ic idx chunks) := by
  intro idx
  induction idx with
  | nil => intro chunks; rfl
  | cons seq rest ih =>
      intro chunks
      simp [uploadBlocks, upEvents, hok seq, ih]

theorem blockEventsOf_append (a b : List NetEvent) :
    blockEventsOf (a ++ b) = blockEventsOf a ++ blockEventsOf b :=
  List.filterMap_append a b _

theorem blockEventsOf_upEvents (ic : Nat) :
    ∀ (idx : List Nat) (chunks : List (List Nat)),
    blockEventsOf (upEvents ic idx chunks) =
      upPairs ic idx chunks := by
  intro idx
  induction idx with
  | nil => intro chunks; rfl
  | cons seq rest ih =>
      intro chunks
      simp [upEvents, upPairs, blockEventsOf, List.filterMap_cons]
      exact ih (chunks.drop ic)

theorem upEvents_length (ic : Nat) :
    ∀ (idx : List Nat) (chunks : List (List Nat)),
    (upEvents ic idx chunks).length = idx.length := by
  intro idx
  induction idx with
  | nil => intro chunks; rfl
  | cons seq rest ih => intro chunks; simp [upEvents, ih]

theorem upPairs_map_fst (ic : Nat) :
    ∀ (idx : List Nat) (chunks : List (List Nat)),
    (upPairs ic idx chunks).map Prod.fst = idx := by
  intro idx
  induction idx with
  | nil => intro chunks; rfl
  | cons seq rest ih => intro chunks; simp [upPairs, ih]

/-- The `k`-th block-upload pair: tag is the `k`-th server index, payload is
the flattened `k`-th `ic`-group of chunks. -/
theorem upPairs_getD (ic : Nat) :
    ∀ (k : Nat) (idx : List Nat) (chunks : List (List Nat)), k < idx.length →
    (upPairs ic idx chunks).getD k (0, []) =
      (idx.getD k 0, ((chunks.drop (ic * k)).take ic).flatten) := by
  intro k
  induction k with
  | zero =>
      intro idx chunks hk
      cases idx with
      | nil => simp at hk
      | cons seq rest => simp [upPairs]
  | succ k ih =>
      intro idx chunks hk
      cases idx with
      | nil => simp at hk
      | cons seq rest =>
          have hk' : k < rest.length := by simpa using hk
          calc (upPairs ic (seq :: rest) chunks).getD (k + 1) (0, [])
              = (upPairs ic rest (chunks.drop ic)).getD k (0, []) := rfl
            _ = (rest.getD k 0,
                (((chunks.drop ic).drop (ic * k)).take ic).flatten) :=
                ih rest (chunks.drop ic) hk'
            _ = ((seq :: rest).getD (k + 1) 0,
                ((chunks.drop (ic * (k + 1))).take ic).flatten) := by
                rw [List.drop_drop, Nat.mul_succ]
                simp [Nat.add_comm]

theorem getD_map (f : α → β) (d : α) :
    ∀ (l : List α) (k : Nat), k < l.length →
    (l.map f).getD k (f d) = f (l.getD k d) := by
  intro l
  induction l with
  | nil => intro k hk; simp at hk
  | cons x xs ih =>
      intro k hk
      cases k with
      | zero => rfl
      | succ k => exact ih k (by simpa using hk)

theorem tierLimits_iter_count_ne_zero (u : Int) :
    (tierLimits u).iter_count ≠ 0 := by
  by_cases h1 : u = 1
  · simp [tierLimits, h1]
  · by_cases h2 : u = 2 <;> simp [tierLimits, h1, h2]

theorem tierLimits_max_size_pos (u : Int) : 0 < (tierLimits u).max_size := by
  by_cases h1 : u = 1
  · simp [tierLimits, h1]
  · by_cases h2 : u = 2 <;> simp [tierLimits, h1, h2]

/-- Claim C9: for every integer `user_type`, `file_upload_multipart` selects
(block size, max total size, blocks-per-iteration) = (16 MiB, 10 GiB, 16384)
when `user_type = 1`, (32 MiB, 20 GiB, 32768) when `user_type = 2`, and
(4 MiB, 4 GiB, 4096) for `user_type = 0` and every other code; the lookup is
a pure total function (no side effects, no failure). -/
theorem tierLimits_spec (u : Int) :
    tierLimits u =
      if u = 1 then ⟨16 * 1024 * 1024, 10 * 1024 * 1024 * 1024, 16384⟩
      else if u = 2 then ⟨32 * 1024 * 1024, 20 * 1024 * 1024 * 1024, 32768⟩
      else ⟨4 * 1024 * 1024, 4 * 1024 * 1024 * 1024, 4096⟩ := by
  unfold tierLimits
  by_cases h1 : u = 1
  · simp [h1]
  · by_cases h2 : u = 2 <;> simp [h1, h2]

/-- Claim C5: `file_upload_multipart` returns
`(False, "分片上传禁止上传空文件")` for a zero-length local file and
`(False, "文件过大")` for a file larger than the tier's maximum total size,
and in both cases the network-event trace is empty: it returns before any
network call. -/
theorem upload_rejects_empty_and_oversize (env : UploadEnv) (a : UploadArgs)
    (hdir : a.target_dir_path ≠ "/")
    (habs : pyStartsWith a.target_dir_path "/" = true)
    (hfile : a.localFileIsFile = true) :
    (a.fileContent.length = 0 →
      file_upload_multipart env a = (.ret false "分片上传禁止上传空文件", []))
    ∧ ((tierLimits a.user_type).max_size < a.fileContent.length →
      file_upload_multipart env a = (.ret false "文件过大", [])) := by
  constructor
  · intro h0
    simp [file_upload_multipart, hdir, habs, hfile, h0]
  · intro hbig
    have h0 : a.fileContent.length ≠ 0 := by
      have := tierLimits_max_size_pos a.user_type
      omega
    simp [file_upload_multipart, hdir, habs, hfile, h0, hbig]

/-- Witness for C5: a concrete environment, an empty file and an oversize
file under the Standard tier. -/
theorem upload_rejects_empty_and_oversize_witness :
    (file_upload_multipart
        ⟨fun _ => "", false, .exn "", fun _ => .ok, .ok 0⟩
        ⟨"/apps/x", "f", true, [], false, 0⟩ =
      (.ret false "分片上传禁止上传空文件", []))
    ∧ (file_upload_multipart
        ⟨fun _ => "", false, .exn "", fun _ => .ok, .ok 0⟩
        ⟨"/apps/x", "f", true, List.replicate 4294967297 0, false, 0⟩ =
      (.ret false "文件过大", [])) :=
  ⟨(upload_rejects_empty_and_oversize _ _ (by decide) (by decide) rfl).1 rfl,
   (upload_rejects_empty_and_oversize _ _ (by decide) (by decide) rfl).2
     (by show (4294967296 : Nat) < (List.replicate 4294967297 (0 : Nat)).length
         rw [List.length_replicate]
         norm_num)⟩

/-- Claim C2: for a non-empty file of size `S` and tier block size `B`
(`B = part_size = 1024 * iter_count`), the block manifest built by
`file_upload_multipart` has exactly `⌈S/B⌉` entries, the `k`-th entry being
the digest of bytes `[k*B, min((k+1)*B, S))`, so the manifest follows
byte-offset order, is never empty, and is a deterministic function of the
file content. -/
theorem block_manifest_spec (h : List Nat → String) (u : Int)
    (file : List Nat) (hf : file ≠ []) :
    ((buildBlockList h (tierLimits u).iter_count file).length =
      (file.length + (tierLimits u).part_size - 1) / (tierLimits u).part_size)
    ∧ buildBlockList h (tierLimits u).iter_count file ≠ []
    ∧ (∀ k, (tierLimits u).part_size * k < file.length →
        (buildBlockList h (tierLimits u).iter_count file).getD k (h []) =
          h ((file.drop ((tierLimits u).part_size * k)).take
              (tierLimits u).part_size))
    ∧ buildBlockList h (tierLimits u).iter_count file =
        buildBlockList h (tierLimits u).iter_count file := by
  have hic : (tierLimits u).iter_count ≠ 0 := tierLimits_iter_count_ne_zero u
  have hB : (tierLimits u).part_size = 1024 * (tierLimits u).iter_count :=
    tierLimits_part_size_eq u
  have hBne : (tierLimits u).part_size ≠ 0 := by
    rw [hB]; positivity
  have heq := buildBlockList_eq h (tierLimits u).iter_count hic file
  refine ⟨?_, ?_, ?_, rfl⟩
  · rw [heq, List.length_map, ← hB, chunksOf_length _ hBne]
  · rw [heq]
    have := chunksOf_ne_nil ((tierLimits u).part_size) file hf hBne
    rw [hB] at this
    simpa using this
  · intro k hk
    rw [heq, ← hB]
    have hklen : k < (chunksOf (tierLimits u).part_size file).length := by
      rw [chunksOf_length _ hBne]
      have h1 : (k + 1) * (tierLimits u).part_size ≤
          file.length + (tierLimits u).part_size - 1 := by
        have hmul : (k + 1) * (tierLimits u).part_size =
            (tierLimits u).part_size * k + (tierLimits u).part_size := by ring
        have hpos := Nat.pos_of_ne_zero hBne
        omega
      have := (Nat.le_div_iff_mul_le (Nat.pos_of_ne_zero hBne)).mpr h1
      omega
    rw [getD_map h [] _ k hklen, chunksOf_getD _ k hBne file hk]

theorem fxerr_zero : fxerr 0 = some "请求成功" := rfl

theorem blockEventsOf_nil : blockEventsOf [] = [] := rfl

theorem blockEventsOf_cons_getFileByPath (tr : List NetEvent) :
    blockEventsOf (.getFileByPath :: tr) = blockEventsOf tr := rfl

theorem blockEventsOf_cons_precreate (m : List String) (tr : List NetEvent) :
    blockEventsOf (.precreateCall m :: tr) = blockEventsOf tr := rfl

theorem blockEventsOf_cons_create (m : List String) (tr : List NetEvent) :
    blockEventsOf (.createCall m :: tr) = blockEventsOf tr := rfl

/-- On a run where validation passes, precreate answers `errno = 0` with
index list `idx`, and every block upload succeeds, the block-upload events
are exactly `upPairs`: position `k` is tagged `idx[k]` and carries the `k`-th
sequential `iter_count`-group of 1 KiB read units. -/
theorem upload_success_trace (env : UploadEnv) (a : UploadArgs)
    (uid : String) (idx : List Nat)
    (hdir : a.target_dir_path ≠ "/")
    (habs : pyStartsWith a.target_dir_path "/" = true)
    (hfile : a.localFileIsFile = true)
    (hne : a.fileContent.length ≠ 0)
    (hsize : a.fileContent.length ≤ (tierLimits a.user_type).max_size)
    (hdup : a.overwrite = true ∨ env.remoteFileExists = false)
    (hpre : env.precreate = .ok 0 uid idx)
    (hok : ∀ s, env.blockRes s = .ok) :
    blockEventsOf (file_upload_multipart env a).2 =
      upPairs (tierLimits a.user_type).iter_count idx
        (chunksOf 1024 a.fileContent) := by
  have hsize' : ¬ (tierLimits a.user_type).max_size < a.fileContent.length :=
    not_lt.mpr hsize
  have hbl := uploadBlocks_all_ok env.blockRes
    (tierLimits a.user_type).iter_count hok idx (chunksOf 1024 a.fileContent)
  have hdup' : ¬ (¬ a.overwrite ∧ env.remoteFileExists) := by
    rcases hdup with h | h <;> simp [h]
  simp only [file_upload_multipart, hdir, habs, hfile, hne, hsize', hpre,
    hdup', hbl, if_neg, if_false, ite_false, Bool.not_true, not_false_iff]
  cases hc : env.create with
  | exn body =>
      by_cases ho : a.overwrite <;>
        simp [ho, hdup', hne, hsize', blockEventsOf_append,
          blockEventsOf_upEvents, blockEventsOf_nil,
          blockEventsOf_cons_getFileByPath, blockEventsOf_cons_precreate,
          blockEventsOf_cons_create]
  | ok cerrno =>
      by_cases hz : cerrno = 0
      · by_cases ho : a.overwrite <;>
          simp [ho, hz, fxerr_zero, hdup', hne, hsize', blockEventsOf_append,
            blockEventsOf_upEvents, blockEventsOf_nil,
            blockEventsOf_cons_getFileByPath, blockEventsOf_cons_precreate,
            blockEventsOf_cons_create]
      · cases hfx : fxerr cerrno <;> by_cases ho : a.overwrite <;>
          simp [ho, hz, hfx, hdup', hne, hsize', blockEventsOf_append,
            blockEventsOf_upEvents, blockEventsOf_nil,
            blockEventsOf_cons_getFileByPath, blockEventsOf_cons_precreate,
            blockEventsOf_cons_create]

/-- Claim C1 counterexample: the server-returned list is `[2, 0, 1]` and the
blocks are indeed uploaded tagged in exactly that order, but the first
uploaded buffer — tagged with index 2 — contains the file's FIRST 4 MiB
slice, not bytes `[2*B, min(3*B, S))` of the file (which here is the empty
range): the claim's per-index content property is false. -/
theorem upload_block_payload_not_indexed_cex :
    ((blockEventsOf (file_upload_multipart envC1 argsC1).2).map Prod.fst =
      [2, 0, 1])
    ∧ ((blockEventsOf (file_upload_multipart envC1 argsC1).2).getD 0
        (0, [])).1 = 2
    ∧ ¬ ((blockEventsOf (file_upload_multipart envC1 argsC1).2).getD 0
        (0, [])).2 =
      (argsC1.fileContent.drop (2 * 4194304)).take 4194304 := by
  have hlen : argsC1.fileContent.length = 4194305 := by
    show (List.replicate 4194305 (0 : Nat)).length = 4194305
    rw [List.length_replicate]
  have htr := upload_success_trace envC1 argsC1 "uid" [2, 0, 1]
    (by decide) (by decide) rfl
    (by rw [hlen]; norm_num)
    (by rw [hlen]; show (4194305 : Nat) ≤ 4294967296; norm_num)
    (Or.inl rfl) rfl (fun s => rfl)
  rw [htr]
  refine ⟨upPairs_map_fst _ _ _, ?_, ?_⟩
  · rw [upPairs_getD _ 0 _ _ (by norm_num)]
    rfl
  · rw [upPairs_getD _ 0 _ _ (by norm_num)]
    simp only [Nat.mul_zero, List.drop_zero]
    rw [chunksOf_take_flatten]
    intro hcontra
    have hu : argsC1.user_type = (0 : Int) := rfl
    have h1 : 1024 * (tierLimits argsC1.user_type).iter_count = 4194304 := by
      rw [hu]; norm_num [tierLimits]
    rw [h1] at hcontra
    have h2 : (argsC1.fileContent.drop (2 * 4194304)).take 4194304 = [] := by
      have hd : argsC1.fileContent.drop (2 * 4194304) = [] :=
        List.drop_eq_nil_of_le (by rw [hlen]; norm_num)
      rw [hd, List.take_nil]
    rw [h2] at hcontra
    have h3 := congrArg List.length hcontra
    rw [List.length_take, hlen, List.length_nil] at h3
    norm_num at h3

/-- Claim C1 (amended): for every server-returned block index list,
`file_upload_multipart` uploads the blocks tagged in exactly the order of
that list, but the payloads are taken from the file sequentially by list
POSITION: the buffer uploaded at position `k` — tagged with the list's
`k`-th index — contains bytes `[k*B, min((k+1)*B, S))` of the local file,
regardless of the tag's value (so for server list `[2, 0, 1]` the block
tagged 2 holds the file's first slice, not its third). -/
theorem upload_blocks_order_and_sequential_payload (env : UploadEnv)
    (a : UploadArgs) (uid : String) (idx : List Nat)
    (hdir : a.target_dir_path ≠ "/")
    (habs : pyStartsWith a.target_dir_path "/" = true)
    (hfile : a.localFileIsFile = true)
    (hne : a.fileContent.length ≠ 0)
    (hsize : a.fileContent.length ≤ (tierLimits a.user_type).max_size)
    (hdup : a.overwrite = true ∨ env.remoteFileExists = false)
    (hpre : env.precreate = .ok 0 uid idx)
    (hok : ∀ s, env.blockRes s = .ok) :
    ((blockEventsOf (file_upload_multipart env a).2).map Prod.fst = idx)
    ∧ (∀ k, k < idx.length →
        (blockEventsOf (file_upload_multipart env a).2).getD k (0, []) =
          (idx.getD k 0,
            (a.fileContent.drop ((tierLimits a.user_type).part_size * k)).take
              (tierLimits a.user_type).part_size)) := by
  have htr := upload_success_trace env a uid idx hdir habs hfile hne hsize
    hdup hpre hok
  rw [htr]
  refine ⟨upPairs_map_fst _ _ _, ?_⟩
  intro k hk
  rw [upPairs_getD _ k _ _ hk, chunksOf_drop, chunksOf_take_flatten,
    tierLimits_part_size_eq, ← Nat.mul_assoc]

/-- Witness for the amended C1: a one-byte file, server list `[0]`. -/
theorem upload_blocks_order_witness :
    (blockEventsOf (file_upload_multipart
        ⟨fun _ => "", false, .ok 0 "u" [0], fun _ => .ok, .ok 0⟩
        ⟨"/apps/x", "f", true, [7], false, 0⟩).2).map Prod.fst = [0] :=
  (upload_blocks_order_and_sequential_payload
    ⟨fun _ => "", false, .ok 0 "u" [0], fun _ => .ok, .ok 0⟩
    ⟨"/apps/x", "f", true, [7], false, 0⟩ "u" [0]
    (by decide) (by decide) rfl (by decide)
    (by show (1 : Nat) ≤ 4294967296; norm_num)
    (Or.inr rfl) rfl (fun s => rfl)).1

/-- Witness for C2: the digest-length function on a three-byte file under an
unrecognised tier code (Standard tier). -/
theorem block_manifest_spec_witness :
    ((buildBlockList (fun b => toString b.length) (tierLimits 7).iter_count
        [10, 20, 30]).length =
      (3 + (tierLimits 7).part_size - 1) / (tierLimits 7).part_size)
    ∧ buildBlockList (fun b => toString b.length) (tierLimits 7).iter_count
        [10, 20, 30] ≠ [] := by
  have h := block_manifest_spec (fun b => toString b.length) 7 [10, 20, 30]
    (by decide)
  exact ⟨h.1, h.2.1⟩

theorem failReqs_length (w : Nat → Nat) :
    ∀ (rem i fb : Nat) (range : Option String),
    (failReqs w i rem fb range).length = rem := by
  intro rem
  induction rem with
  | zero => intro i fb range; rfl
  | succ rem ih => intro i fb range; simp [failReqs, ih]

/-- A run in which every attempt fails with a caught exception: the result is
`(False, last error)` (or the initial `err` when no attempt runs), each
attempt's request carries the `Range` header computed from the re-measured
temporary size, and the temporary file finally holds all the partial
writes. -/
theorem autoRetryLoop_fail (outs : Nat → AttemptOutcome) (w : Nat → Nat)
    (m : Nat → String) :
    ∀ (rem i : Nat) (tmp : Option Nat) (range : Option String) (err : String),
    (∀ j, j < rem → outs (i + j) = .caughtExn (w (i + j)) (m (i + j))) →
    autoRetryLoop outs i rem tmp range err =
      ⟨(if rem = 0 then .ret false err else .ret false (m (i + rem - 1))),
       failReqs w i rem (tmp.getD 0) range,
       (if rem = 0 then tmp else some (tmp.getD 0 + sumW w i rem)),
       none⟩ := by
  intro rem
  induction rem with
  | zero => intro i tmp range err hfail; rfl
  | succ rem ih =>
      intro i tmp range err hfail
      have h0 : outs i = .caughtExn (w i) (m i) := by
        have := hfail 0 (by omega)
        simpa using this
      have hfail' : ∀ j, j < rem →
          outs (i + 1 + j) = .caughtExn (w (i + 1 + j)) (m (i + 1 + j)) := by
        intro j hj
        have := hfail (j + 1) (by omega)
        have harith : i + (j + 1) = i + 1 + j := by omega
        rwa [harith] at this
      have hrec := ih (i + 1) (some (tmp.getD 0 + w i))
        (if tmp.getD 0 ≠ 0
          then some ("bytes=" ++ toString (tmp.getD 0) ++ "-") else range)
        (m i) hfail'
      simp only [autoRetryLoop, h0, hrec, failReqs]
      by_cases hr : rem = 0
      · subst hr
        simp [sumW]
      · have e1 : i + 1 + rem - 1 = i + (rem + 1) - 1 := by omega
        have e2 : (tmp.getD 0 + w i) + sumW w (i + 1) rem =
            tmp.getD 0 + sumW w i (rem + 1) := by
          simp [sumW]; omega
        simp [hr, e1, e2]

/-- A run whose first `k` attempts fail with caught exceptions and whose
`(k+1)`-st attempt streams to completion: the loop returns success at that
attempt; `k+1` requests are issued, with the same re-measured `Range`
headers; the rename removes the temporary file and materialises the
destination. -/
theorem autoRetryLoop_success (outs : Nat → AttemptOutcome) (w : Nat → Nat)
    (m : Nat → String) (cl wr : Nat) :
    ∀ (k rem i : Nat) (tmp : Option Nat) (range : Option String)
      (err : String), k < rem →
    (∀ j, j < k → outs (i + j) = .caughtExn (w (i + j)) (m (i + j))) →
    outs (i + k) = .success cl wr →
    autoRetryLoop outs i rem tmp range err =
      ⟨.ret true "下载完成", failReqs w i (k + 1) (tmp.getD 0) range, none,
        some (tmp.getD 0 + sumW w i k + wr)⟩ := by
  intro k
  induction k with
  | zero =>
      intro rem i tmp range err hk hfail hsucc
      cases rem with
      | zero => omega
      | succ r =>
          have h0 : outs i = .success cl wr := by simpa using hsucc
          simp [autoRetryLoop, h0, failReqs, sumW]
  | succ k ih =>
      intro rem i tmp range err hk hfail hsucc
      cases rem with
      | zero => omega
      | succ r =>
          have h0 : outs i = .caughtExn (w i) (m i) := by
            have := hfail 0 (by omega)
            simpa using this
          have hfail' : ∀ j, j < k →
              outs (i + 1 + j) = .caughtExn (w (i + 1 + j)) (m (i + 1 + j)) := by
            intro j hj
            have := hfail (j + 1) (by omega)
            have harith : i + (j + 1) = i + 1 + j := by omega
            rwa [harith] at this
          have hsucc' : outs (i + 1 + k) = .success cl wr := by
            have harith : i + (k + 1) = i + 1 + k := by omega
            rwa [harith] at hsucc
          have hrec := ih r (i + 1) (some (tmp.getD 0 + w i))
            (if tmp.getD 0 ≠ 0
              then some ("bytes=" ++ toString (tmp.getD 0) ++ "-") else range)
            (m i) (by omega) hfail' hsucc'
          simp only [autoRetryLoop, h0, hrec, failReqs]
          have e2 : (tmp.getD 0 + w i) + sumW w (i + 1) k + wr =
              tmp.getD 0 + sumW w i (k + 1) + wr := by
            simp [sumW]; omega
          simp [e2]

/-- The `Range` header of the `k`-th request of a failing run, when the
temporary size at its start is non-zero: `bytes=<current size>-`. -/
theorem failReqs_getD_pos (w : Nat → Nat) :
    ∀ (k rem i fb : Nat) (range : Option String), fb ≠ 0 → k < rem →
    (failReqs w i rem fb range).getD k none =
      some ("bytes=" ++ toString (fb + sumW w i k) ++ "-") := by
  intro k
  induction k with
  | zero =>
      intro rem i fb range hfb hk
      cases rem with
      | zero => omega
      | succ r => simp [failReqs, hfb, sumW]
  | succ k ih =>
      intro rem i fb range hfb hk
      cases rem with
      | zero => omega
      | succ r =>
          have step : (failReqs w i (r + 1) fb range).getD (k + 1) none =
              (failReqs w (i + 1) r (fb + w i)
                (if fb ≠ 0 then some ("bytes=" ++ toString fb ++ "-")
                  else range)).getD k none := rfl
          rw [step, ih r (i + 1) (fb + w i) _ (by omega) (by omega)]
          have e : fb + w i + sumW w (i + 1) k = fb + sumW w i (k + 1) := by
            simp [sumW]; omega
          rw [e]

/-- The `Range` header of the `k`-th request of a failing run starting with
no temporary file and no sticky header: `bytes=<written so far>-` once the
accumulated writes are non-zero, no header before that. -/
theorem failReqs_getD_zero (w : Nat → Nat) :
    ∀ (k rem i : Nat), k < rem →
    (failReqs w i rem 0 none).getD k none =
      (if sumW w i k ≠ 0
        then some ("bytes=" ++ toString (sumW w i k) ++ "-") else none) := by
  intro k
  induction k with
  | zero =>
      intro rem i hk
      cases rem with
      | zero => omega
      | succ r => simp [failReqs, sumW]
  | succ k ih =>
      intro rem i hk
      cases rem with
      | zero => omega
      | succ r =>
          have step : (failReqs w i (r + 1) 0 none).getD (k + 1) none =
              (failReqs w (i + 1) r (w i) none).getD k none := by
            simp [failReqs]
          rw [step]
          by_cases hw : w i = 0
          · rw [hw]
            rw [ih r (i + 1) (by omega)]
            have e : sumW w i (k + 1) = sumW w (i + 1) k := by
              simp [sumW, hw]
            rw [e]
          · rw [failReqs_getD_pos w k r (i + 1) (w i) none hw (by omega)]
            have e : w i + sumW w (i + 1) k = sumW w i (k + 1) := by
              simp [sumW]
            have hne : sumW w i (k + 1) ≠ 0 := by
              rw [← e]; omega
            rw [e, if_pos hne]

/-- Combined form: with no sticky header at entry, the `k`-th request's
`Range` is `bytes=<tmp size at that attempt>-` when that size is non-zero,
absent otherwise. -/
theorem failReqs_getD (w : Nat → Nat) (k rem i fb : Nat) (hk : k < rem) :
    (failReqs w i rem fb none).getD k none =
      (if fb + sumW w i k ≠ 0
        then some ("bytes=" ++ toString (fb + sumW w i k) ++ "-")
        else none) := by
  by_cases hfb : fb = 0
  · subst hfb
    rw [failReqs_getD_zero w k rem i hk]
    simp
  · rw [failReqs_getD_pos w k rem i fb none hfb hk, if_pos (by omega)]

/-- Claim C3: for every `max_retry ≥ 1` the breakpoint auto-retry download
runs the range-request-and-stream cycle up to `max_retry` times; every
attempt — including the attempt after a caught failure of the previous one —
re-reads the temporary file's current size to pick its resume offset
(attempt `k` requests `bytes=<current size>-`, never attempt 0's stale
value); the loop returns success on the first attempt that completes the
rename; if all attempts are exhausted it returns `(False, last error)`. -/
theorem auto_retry_spec (dlink : String) (w : Nat → Nat) (m : Nat → String)
    (cl wr max_retry : Nat) (tmp0 : Option Nat) (hmax : 1 ≤ max_retry) :
    (∀ outs : Nat → AttemptOutcome,
      (∀ j, j < max_retry → outs j = .caughtExn (w j) (m j)) →
      (file_download_by_dlink_breakpoint_auto_retry dlink outs max_retry
          tmp0).res = .ret false (m (max_retry - 1))
      ∧ (file_download_by_dlink_breakpoint_auto_retry dlink outs max_retry
          tmp0).ranges.length = max_retry
      ∧ (∀ k, k < max_retry →
          (file_download_by_dlink_breakpoint_auto_retry dlink outs max_retry
            tmp0).ranges.getD k none =
            (if tmp0.getD 0 + sumW w 0 k ≠ 0
              then some ("bytes=" ++ toString (tmp0.getD 0 + sumW w 0 k) ++
                "-")
              else none)))
    ∧ (∀ (outs : Nat → AttemptOutcome) (k : Nat), k < max_retry →
      (∀ j, j < k → outs j = .caughtExn (w j) (m j)) →
      outs k = .success cl wr →
      (file_download_by_dlink_breakpoint_auto_retry dlink outs max_retry
          tmp0).res = .ret true "下载完成"
      ∧ (file_download_by_dlink_breakpoint_auto_retry dlink outs max_retry
          tmp0).ranges.length = k + 1
      ∧ (file_download_by_dlink_breakpoint_auto_retry dlink outs max_retry
          tmp0).ranges.getD k none =
          (if tmp0.getD 0 + sumW w 0 k ≠ 0
            then some ("bytes=" ++ toString (tmp0.getD 0 + sumW w 0 k) ++ "-")
            else none)
      ∧ (file_download_by_dlink_breakpoint_auto_retry dlink outs max_retry
          tmp0).tmpAfter = none
      ∧ (file_download_by_dlink_breakpoint_auto_retry dlink outs max_retry
          tmp0).destAfter = some (tmp0.getD 0 + sumW w 0 k + wr)) := by
  constructor
  · intro outs hf
    have hf0 : ∀ j, j < max_retry →
        outs (0 + j) = .caughtExn (w (0 + j)) (m (0 + j)) := by
      intro j hj
      rw [Nat.zero_add]
      exact hf j hj
    have h := autoRetryLoop_fail outs w m max_retry 0 tmp0 none "Error" hf0
    have hne : ¬ max_retry = 0 := by omega
    rw [file_download_by_dlink_breakpoint_auto_retry, h]
    refine ⟨by simp [hne], failReqs_length w max_retry 0 (tmp0.getD 0) none,
      ?_⟩
    intro k hk
    exact failReqs_getD w k max_retry 0 (tmp0.getD 0) hk
  · intro outs k hk hf hs
    have hf0 : ∀ j, j < k →
        outs (0 + j) = .caughtExn (w (0 + j)) (m (0 + j)) := by
      intro j hj
      rw [Nat.zero_add]
      exact hf j hj
    have hs0 : outs (0 + k) = .success cl wr := by
      rw [Nat.zero_add]
      exact hs
    have h := autoRetryLoop_success outs w m cl wr k max_retry 0 tmp0 none
      "Error" hk hf0 hs0
    rw [file_download_by_dlink_breakpoint_auto_retry, h]
    exact ⟨rfl, failReqs_length w (k + 1) 0 (tmp0.getD 0) none,
      failReqs_getD w k (k + 1) 0 (tmp0.getD 0) (by omega), rfl, rfl⟩

/-- Witness for C3: two attempts, both failing after writing 5 bytes; the
run returns the last error and the second request resumes at byte 5. -/
theorem auto_retry_spec_witness :
    (file_download_by_dlink_breakpoint_auto_retry "d"
        (fun _ => .caughtExn 5 "E") 2 none).res = .ret false "E"
    ∧ (file_download_by_dlink_breakpoint_auto_retry "d"
        (fun _ => .caughtExn 5 "E") 2 none).ranges.getD 1 none =
      some "bytes=5-" := by
  have h := (auto_retry_spec "d" (fun _ => 5) (fun _ => "E") 0 7 2 none
    (by norm_num)).1 (fun _ => .caughtExn 5 "E") (fun j hj => rfl)
  refine ⟨h.1, ?_⟩
  rw [h.2.2 1 (by norm_num)]
  decide

/-- Claim C4: in a breakpoint download session whose response status is 200
or 206, a pre-existing temporary file of `N > 0` bytes makes the GET carry
`Range: bytes=N-` and the temporary file is opened in append mode, while an
absent temporary file gives a request with no `Range` header and fresh-write
mode; the progress total is `N` plus the server-reported Content-Length. -/
theorem breakpoint_resume_spec (dlink : String)
    (hd : pyStartsWith dlink "https://d.pcs.baidu.com/file/" = true)
    (st errCode : Int) (errRaw : String) (cl : Nat) (so : StreamOutcome)
    (hst : st = 200 ∨ st = 206) :
    (∀ N, 0 < N →
      (file_download_by_dlink_breakpoint dlink (some N)
          (.responds st errCode errRaw cl) so).2.requestRange =
        some ("bytes=" ++ toString N ++ "-")
      ∧ (file_download_by_dlink_breakpoint dlink (some N)
          (.responds st errCode errRaw cl) so).2.openMode = some "ab"
      ∧ (file_download_by_dlink_breakpoint dlink (some N)
          (.responds st errCode errRaw cl) so).2.pbarTotal = some (N + cl))
    ∧ ((file_download_by_dlink_breakpoint dlink none
          (.responds st errCode errRaw cl) so).2.requestRange = none
      ∧ (file_download_by_dlink_breakpoint dlink none
          (.responds st errCode errRaw cl) so).2.openMode = some "wb"
      ∧ (file_download_by_dlink_breakpoint dlink none
          (.responds st errCode errRaw cl) so).2.pbarTotal = some cl) := by
  constructor
  · intro N hN
    have hN' : N ≠ 0 := by omega
    rcases hst with h | h <;> subst h <;> cases so <;>
      simp [file_download_by_dlink_breakpoint, breakpoint_init, hd, hN']
  · rcases hst with h | h <;> subst h <;> cases so <;>
      simp [file_download_by_dlink_breakpoint, breakpoint_init, hd]

/-- Witness for C4: a 3-byte temporary file, 2 bytes remaining, status
206. -/
theorem breakpoint_resume_spec_witness :
    (file_download_by_dlink_breakpoint "https://d.pcs.baidu.com/file/abc"
        (some 3) (.responds 206 0 "" 2) (.ok 2)).2.requestRange =
      some "bytes=3-"
    ∧ (file_download_by_dlink_breakpoint "https://d.pcs.baidu.com/file/abc"
        (some 3) (.responds 206 0 "" 2) (.ok 2)).2.openMode = some "ab"
    ∧ (file_download_by_dlink_breakpoint "https://d.pcs.baidu.com/file/abc"
        (some 3) (.responds 206 0 "" 2) (.ok 2)).2.pbarTotal = some 5 := by
  have h := (breakpoint_resume_spec "https://d.pcs.baidu.com/file/abc"
    (by decide) 206 0 "" 2 (.ok 2) (Or.inr rfl)).1 3 (by norm_num)
  exact ⟨h.1, h.2.1, h.2.2⟩

/-- Claim C6: when the destination path already exists as a file and
`overwrite` is false, `__file_download_check` returns `(False, "文件已存在")`
and leaves the file system — in particular the destination's content and
modification time — unchanged. -/
theorem download_check_preserves_existing_dest (fs : Fs) (overwrite : Bool)
    (r1 r2 : Bool × String) (what : Int)
    (hpar : fs.parentExists = true)
    (hdest : fs.destFile.isSome = true)
    (hov : overwrite = false) :
    file_download_check fs overwrite r1 r2 what =
      ((false, "文件已存在"), fs) := by
  subst hov
  rcases hd : fs.destFile with _ | d
  · rw [hd] at hdest
    simp at hdest
  · simp [file_download_check, hpar, hd]

/-- Witness for C6: a destination file of three bytes with mtime 42. -/
theorem download_check_preserves_existing_dest_witness :
    file_download_check ⟨true, some ([1, 2, 3], 42)⟩ false (true, "dl")
        (true, "fsid") 2 =
      ((false, "文件已存在"), ⟨true, some ([1, 2, 3], 42)⟩) :=
  download_check_preserves_existing_dest _ false _ _ 2 rfl rfl rfl

/-- Claim C7: on a caught exception during streaming the simple variant
deletes the `_fxtmp` temporary file and returns `(False, msg)`, while the
breakpoint variant returns `(False, msg)` with the temporary file retained
(grown by the bytes written); on streaming completion both variants rename
the temporary file onto the destination and return `(True, "下载完成")`. -/
theorem download_tmp_cleanup_spec (dlink : String)
    (hd : pyStartsWith dlink "https://d.pcs.baidu.com/file/" = true)
    (errCode : Int) (errRaw : String) (cl : Nat) (tmp0 : Option Nat)
    (wOk wEx : Nat) (msg : String) (st : Int) (hst : st = 200 ∨ st = 206) :
    ((file_download_by_dlink_simple dlink tmp0
        (.responds 200 errCode errRaw cl) (.exn wEx msg)).1 = .ret false msg
      ∧ (file_download_by_dlink_simple dlink tmp0
        (.responds 200 errCode errRaw cl) (.exn wEx msg)).2.tmpAfter = none
      ∧ (file_download_by_dlink_simple dlink tmp0
        (.responds 200 errCode errRaw cl) (.exn wEx msg)).2.renamed = false)
    ∧ ((file_download_by_dlink_simple dlink tmp0
        (.responds 200 errCode errRaw cl) (.ok wOk)).1 = .ret true "下载完成"
      ∧ (file_download_by_dlink_simple dlink tmp0
        (.responds 200 errCode errRaw cl) (.ok wOk)).2.renamed = true
      ∧ (file_download_by_dlink_simple dlink tmp0
        (.responds 200 errCode errRaw cl) (.ok wOk)).2.tmpAfter = none
      ∧ (file_download_by_dlink_simple dlink tmp0
        (.responds 200 errCode errRaw cl) (.ok wOk)).2.destAfter = some wOk)
    ∧ ((file_download_by_dlink_breakpoint dlink tmp0
        (.responds st errCode errRaw cl) (.exn wEx msg)).1 = .ret false msg
      ∧ (file_download_by_dlink_breakpoint dlink tmp0
        (.responds st errCode errRaw cl) (.exn wEx msg)).2.tmpAfter =
          some (tmp0.getD 0 + wEx)
      ∧ (file_download_by_dlink_breakpoint dlink tmp0
        (.responds st errCode errRaw cl) (.exn wEx msg)).2.renamed = false)
    ∧ ((file_download_by_dlink_breakpoint dlink tmp0
        (.responds st errCode errRaw cl) (.ok wOk)).1 = .ret true "下载完成"
      ∧ (file_download_by_dlink_breakpoint dlink tmp0
        (.responds st errCode errRaw cl) (.ok wOk)).2.renamed = true
      ∧ (file_download_by_dlink_breakpoint dlink tmp0
        (.responds st errCode errRaw cl) (.ok wOk)).2.tmpAfter = none
      ∧ (file_download_by_dlink_breakpoint dlink tmp0
        (.responds st errCode errRaw cl) (.ok wOk)).2.destAfter =
          some (tmp0.getD 0 + wOk)) := by
  refine ⟨⟨?_, ?_, ?_⟩, ⟨?_, ?_, ?_, ?_⟩, ⟨?_, ?_, ?_⟩, ⟨?_, ?_, ?_, ?_⟩⟩ <;>
    rcases hst with h | h <;> subst h <;>
      simp [file_download_by_dlink_simple, file_download_by_dlink_breakpoint,
        breakpoint_init, hd]

/-- Witness for C7: concrete simple and breakpoint calls. -/
theorem download_tmp_cleanup_spec_witness :
    ((file_download_by_dlink_simple "https://d.pcs.baidu.com/file/abc"
        (some 9) (.responds 200 0 "" 4) (.exn 1 "boom")).2.tmpAfter = none)
    ∧ ((file_download_by_dlink_breakpoint "https://d.pcs.baidu.com/file/abc"
        (some 9) (.responds 206 0 "" 4) (.exn 1 "boom")).2.tmpAfter =
      some 10) := by
  have h := download_tmp_cleanup_spec "https://d.pcs.baidu.com/file/abc"
    (by decide) 0 "" 4 (some 9) 4 1 "boom" 206 (Or.inr rfl)
  exact ⟨h.1.2.1, h.2.2.1.2.1⟩

/-- Claim C8 counterexample: on a non-200/206 response whose provider error
code (99999) is not in the error table, the breakpoint auto-retry variant
raises a `KeyError` instead of returning the server-supplied raw message. -/
theorem auto_retry_unknown_code_raises_cex :
    (file_download_by_dlink_breakpoint_auto_retry "d"
        (fun _ => .httpError 99999 "raw server message") 3 none).res =
      .raised (.keyError 99999)
    ∧ (file_download_by_dlink_breakpoint_auto_retry "d"
        (fun _ => .httpError 99999 "raw server message") 3 none).res ≠
      .ret false "raw server message" := by
  constructor
  · rfl
  · decide

/-- Claim C8 (amended): on a non-200/206 response, the simple and breakpoint
variants return the table-mapped message for a known provider error code and
the server-supplied raw message verbatim otherwise; the auto-retry variant
returns the table-mapped message for a known code but RAISES a `KeyError`
for an unknown code instead of falling back to the raw message. -/
theorem error_table_fallback_spec (dlink : String)
    (hd : pyStartsWith dlink "https://d.pcs.baidu.com/file/" = true)
    (st errCode : Int) (errRaw : String) (cl : Nat) (so : StreamOutcome)
    (tmp0 : Option Nat) (max_retry : Nat) (hmax : 1 ≤ max_retry)
    (hst200 : st ≠ 200) (hst206 : st ≠ 206) :
    ((file_download_by_dlink_simple dlink tmp0
        (.responds st errCode errRaw cl) so).1 =
      (match fxerr errCode with
        | some m => .ret false m
        | none => .ret false errRaw))
    ∧ ((file_download_by_dlink_breakpoint dlink tmp0
        (.responds st errCode errRaw cl) so).1 =
      (match fxerr errCode with
        | some m => .ret false m
        | none => .ret false errRaw))
    ∧ ((file_download_by_dlink_breakpoint_auto_retry dlink
        (fun _ => .httpError errCode errRaw) max_retry none).res =
      (match fxerr errCode with
        | some m => .ret false m
        | none => .raised (.keyError errCode))) := by
  refine ⟨?_, ?_, ?_⟩
  · cases hfx : fxerr errCode <;>
      simp [file_download_by_dlink_simple, hd, hst200, hfx]
  · cases hfx : fxerr errCode <;>
      simp [file_download_by_dlink_breakpoint, breakpoint_init, hd, hst200,
        hst206, hfx]
  · cases max_retry with
    | zero => omega
    | succ r =>
        cases hfx : fxerr errCode <;>
          simp [file_download_by_dlink_breakpoint_auto_retry, autoRetryLoop,
            hfx]

/-- Witness for the amended C8: known code `-9` maps through the table in
all three variants; unknown code `99999` falls back to the raw message in
the simple and breakpoint variants. -/
theorem error_table_fallback_spec_witness :
    ((file_download_by_dlink_simple "https://d.pcs.baidu.com/file/abc"
        none (.responds 403 (-9) "raw" 0) (.ok 0)).1 =
      .ret false "文件或目录不存在")
    ∧ ((file_download_by_dlink_simple "https://d.pcs.baidu.com/file/abc"
        none (.responds 403 99999 "raw" 0) (.ok 0)).1 = .ret false "raw")
    ∧ ((file_download_by_dlink_breakpoint "https://d.pcs.baidu.com/file/abc"
        none (.responds 403 99999 "raw" 0) (.ok 0)).1 = .ret false "raw") := by
  have h1 := error_table_fallback_spec "https://d.pcs.baidu.com/file/abc"
    (by decide) 403 (-9) "raw" 0 (.ok 0) none 1 (by norm_num)
    (by decide) (by decide)
  have h2 := error_table_fallback_spec "https://d.pcs.baidu.com/file/abc"
    (by decide) 403 99999 "raw" 0 (.ok 0) none 1 (by norm_num)
    (by decide) (by decide)
  exact ⟨h1.1, h2.1, h2.2.1⟩

/-- Claim C10: for every truthy `local_file_name` argument — any non-empty
caller-supplied string, and also the `...` default sentinel — the download
operations' selection expression discards the supplied name and picks the
remote file's own name, because it chooses the caller's value only when it
is falsy; in particular different explicit non-empty names all yield the
same destination name. -/
theorem local_name_ignored_spec (lfn : PyStrArg) (remote : String)
    (h : pyTruthy lfn = true) :
    downloadLocalNameSelection lfn remote = .str remote
    ∧ (∀ s : String, s ≠ "" →
        downloadLocalNameSelection (.str s) remote =
          downloadLocalNameSelection .ellipsisDefault remote) := by
  constructor
  · simp [downloadLocalNameSelection, h]
  · intro s hs
    simp [downloadLocalNameSelection, pyTruthy, hs]

/-- Witness for C10: an explicit caller-supplied name is ignored. -/
theorem local_name_ignored_spec_witness :
    downloadLocalNameSelection (.str "myname.bin") "remote.bin" =
      .str "remote.bin" :=
  (local_name_ignored_spec (.str "myname.bin") "remote.bin" (by decide)).1

end FastXpan
